import Mathlib

/-!
Verification of the workflow-orchestration core of the AUTO financial
analyst pipeline.  The Python sources are shallowly embedded: each agent
step becomes a pure function on an explicit state record, external
effects (text generation, market-data lookups, wall clock, progress
callbacks) become oracle parameters, and fallible calls are modelled
with `Except`.
-/

set_option maxRecDepth 10000

/-! ### Python string primitives used by the sources -/

/-- Checks that the pattern list is an initial segment of the text list. -/
def leadsList : List Char → List Char → Bool
  | [], _ => true
  | _ :: _, [] => false
  | p :: ps, c :: cs => (p == c) && leadsList ps cs

/-- Occurrence of a pattern anywhere in a text, as in the Python
substring operator for strings. -/
def occursIn (pat : List Char) : List Char → Bool
  | [] => pat.isEmpty
  | c :: cs => leadsList pat (c :: cs) || occursIn pat cs

/-- Python substring membership of pat in s. -/
def strContains (s pat : String) : Bool :=
  occursIn pat.toList s.toList

/-- Python str.upper for the ASCII alphabet. -/
def upperStr (s : String) : String :=
  String.mk (s.toList.map Char.toUpper)

/-- Python str.lower for the ASCII alphabet. -/
def lowerStr (s : String) : String :=
  String.mk (s.toList.map Char.toLower)

/-- Whitespace characters recognised by Python str.strip and str.split. -/
def pySpace (c : Char) : Bool :=
  c == ' ' || c == '\t' || c == '\n' || c == '\r' || c == '\x0b' || c == '\x0c'

/-- Python str.strip with no argument: remove leading and trailing
whitespace. -/
def pyStrip (s : String) : String :=
  String.mk (((s.toList.dropWhile pySpace).reverse.dropWhile pySpace).reverse)

/-- Accumulator pass behind `splitWs`: current reversed word, rest of
the text. -/
def splitWsAux : List Char → List Char → List (List Char)
  | acc, [] => if acc.isEmpty then [] else [acc.reverse]
  | acc, c :: cs =>
    if pySpace c then
      (if acc.isEmpty then [] else [acc.reverse]) ++ splitWsAux [] cs
    else
      splitWsAux (c :: acc) cs

/-- Python str.split with no argument: split on runs of whitespace,
discarding empty pieces. -/
def splitWs (s : String) : List String :=
  (splitWsAux [] s.toList).map String.mk

/-- Value of a nonempty all-digit character list, none otherwise. -/
def decDigitsVal (l : List Char) : Option Int :=
  if l.isEmpty then none
  else if l.all Char.isDigit then
    some (l.foldl (fun a c => a * 10 + ((c.toNat : Int) - 48)) 0)
  else none

/-- Python int applied to an already-stripped token: an optional sign
followed by decimal digits.  Underscored numeric literals are not
modelled (they never arise in the score lines the sources parse). -/
def pyInt (s : String) : Option Int :=
  match s.toList with
  | '+' :: ds => decDigitsVal ds
  | '-' :: ds => (decDigitsVal ds).map Neg.neg
  | ds => decDigitsVal ds

/-- Split of a character list at every occurrence of a separator
character, keeping empty pieces, as in Python str.split with a
one-character separator. -/
def splitOnCharL (sep : Char) : List Char → List (List Char)
  | [] => [[]]
  | c :: cs =>
    match splitOnCharL sep cs with
    | [] => [[c]]
    | h :: t => if c == sep then [] :: h :: t else (c :: h) :: t

/-- Python str.split with a one-character separator. -/
def pySplitChar (sep : Char) (s : String) : List String :=
  (splitOnCharL sep s.toList).map String.mk

/-- Python-dict association-list lookup: first binding of the key. -/
def dictGet {α : Type} (d : List (String × α)) (k : String) : Option α :=
  match d with
  | [] => none
  | (k₀, v) :: rest => if k = k₀ then some v else dictGet rest k

/-- Python-dict update d[k] = v: replace the binding in place when the
key exists, otherwise append it at the end (insertion order). -/
def dictSet {α : Type} (d : List (String × α)) (k : String) (v : α) : List (String × α) :=
  match d with
  | [] => [(k, v)]
  | (k₀, w) :: rest => if k = k₀ then (k₀, v) :: rest else (k₀, w) :: dictSet rest k v

/-- Key sequence of a Python dict in insertion order. -/
def dictKeys {α : Type} (d : List (String × α)) : List String :=
  d.map Prod.fst

/-- Python str.join with a comma-space separator. -/
def joinComma : List String → String
  | [] => ""
  | [x] => x
  | x :: xs => x ++ ", " ++ joinComma xs

/-! ### Shared state (src/utils/state_management.py) -/

/-- One entry of `raw_data`: the string-valued fields of the per-source
record.  Opaque non-string payloads returned by the external data
libraries (pandas frames, the raw info mapping) are carried by the
oracles instead, since no orchestration decision reads them. -/
abbrev Record := List (String × String)

/-- Result stored by the analyst step into `analyzed_data`
(src/agents/data_analyst.py, lines 158-174). -/
inductive AnalyzedData where
  | success (detailed_analysis : String) (timestamp : String) (data_sources_used : List String)
  | failure (error : String) (fallback_analysis : String)
deriving DecidableEq, Repr

/-- FinancialAnalysisState of src/utils/state_management.py: messages
are kept as their content strings. -/
structure FinancialAnalysisState where
  company_name : String
  research_plan : List String
  raw_data : List (String × Record)
  analyzed_data : Option AnalyzedData
  final_report : String
  messages : List String
  iteration_count : Nat
  quality_check_passed : Bool
deriving DecidableEq, Repr

/-! ### Quality checker (src/agents/quality_checker.py) -/

/-- Score extraction of src/agents/quality_checker.py lines 74-80:
default 8, first line holding the marker, text between the first two
colons, stripped, first whitespace-separated token, parsed as an
integer; every parse failure keeps the default. -/
def extract_quality_score (quality_assessment : String) : Int :=
  if strContains quality_assessment "QUALITY_SCORE:" then
    match (pySplitChar '\n' quality_assessment).filter (fun l => strContains l "QUALITY_SCORE:") with
    | [] => 8
    | line :: _ =>
      match (pySplitChar ':' line).drop 1 with
      | [] => 8
      | p :: _ =>
        match splitWs (pyStrip p) with
        | [] => 8
        | tok :: _ => (pyInt tok).getD 8
  else 8

/-- QualityCheckerAgent.run of src/agents/quality_checker.py lines
52-131.  The oracle is the quality text-generation call: ok carries the
assessment text, error the exception message.  The except branch (lines
119-129) sets the pass flag and appends a message but does not reach
the increment on line 117. -/
def quality_checker_run (oc : Except String String) (s : FinancialAnalysisState) :
    FinancialAnalysisState :=
  match oc with
  | .error _ =>
    { s with quality_check_passed := true,
             messages := s.messages ++ ["Quality check failed due to error, accepting report"] }
  | .ok quality_assessment =>
    let quality_score := extract_quality_score quality_assessment
    let has_errors := strContains (lowerStr s.final_report) "error" ||
      strContains (lowerStr s.final_report) "failed"
    let has_recommendation := ["BUY", "SELL", "HOLD", "RECOMMENDATION"].any
      (fun w => strContains (upperStr s.final_report) w)
    let has_financial_data := ["PRICE", "REVENUE", "PROFIT", "GROWTH", "VALUATION"].any
      (fun w => strContains (upperStr s.final_report) w)
    let is_too_short := decide (s.final_report.length < 500)
    let needs_improvement :=
      has_errors || decide (quality_score < 6) ||
      (!has_recommendation && !is_too_short) ||
      (!has_financial_data && !is_too_short)
    let needs_improvement :=
      if s.iteration_count == 0 && decide (5 ≤ quality_score) then false
      else needs_improvement
    let passed :=
      if !needs_improvement then true
      else if s.iteration_count < 2 then false
      else true
    { s with
        quality_check_passed := passed,
        messages := s.messages ++
          ["Quality check completed. Status: " ++
            (if passed then "APPROVED" else "NEEDS_IMPROVEMENT")],
        iteration_count := s.iteration_count + 1 }

/-! ### Branch predicate (src/utils/helpers.py lines 27-36) -/

/-- The conditional-edge function should_continue of
src/utils/helpers.py: end when the quality check passed or the
iteration count reached 2, otherwise loop back to the fetcher node. -/
def should_continue (s : FinancialAnalysisState) : String :=
  if s.quality_check_passed || decide (2 ≤ s.iteration_count) then "end"
  else "data_fetcher"

/-! ### Data fetcher (src/agents/data_fetcher.py) -/

/-- Python truthiness of an optional string field: absent or empty is
falsy.  A numeric zero price (falsy in Python) is not modelled; prices
are opaque nonempty strings. -/
def pyTruthy (o : Option String) : Bool :=
  match o with
  | none => false
  | some v => !(v == "")

/-- Exchange-suffix guard of src/agents/data_fetcher.py line 28:
substring test against the uppercased symbol. -/
def hasExchangeSuffix (symbol : String) : Bool :=
  [".NS", ".BO", ".NSE", ".BSE"].any (fun suf => strContains (upperStr symbol) suf)

/-- Richness gate of src/agents/data_fetcher.py line 36: the regional
variant is adopted only when the fetched info mapping is truthy, has
more than 50 fields, and carries a truthy current price. -/
def richInfo (info : Record) : Bool :=
  !info.isEmpty && decide (50 < info.length) && pyTruthy (dictGet info "currentPrice")

/-- Oracle for the market-data library: the info mapping returned per
queried symbol (string-valued fields, a None-valued or absent entry of
the Python mapping is an absent key), and the exception raised by any
of the library calls, when one raises. -/
structure StockOracle where
  info_of : String → Record
  raised : Option String

/-- DataFetcherAgent.get_stock_data of src/agents/data_fetcher.py lines
23-82.  Non-string payload fields of the returned Python dict
(company_info, price_history, financials, balance_sheet, cash_flow) are
opaque external records no later orchestration decision reads; the
embedding keeps the string-valued fields. -/
def get_stock_data (o : StockOracle) (symbol : String) : Record :=
  let original_symbol := symbol
  match o.raised with
  | some e =>
    [("error", "Failed to fetch stock data for " ++ original_symbol ++ ": " ++ e ++
      ". For Indian stocks, try using .NS suffix (e.g., RELIANCE.NS)")]
  | none =>
    let pair :=
      if !hasExchangeSuffix symbol then
        let indian_symbol := symbol ++ ".NS"
        let info := o.info_of indian_symbol
        if richInfo info then
          (indian_symbol, info)
        else
          (original_symbol, o.info_of original_symbol)
      else
        (symbol, o.info_of symbol)
    let symbol := pair.1
    let info := pair.2
    if info.isEmpty || decide (info.length < 10) then
      [("error", "Insufficient data for " ++ original_symbol ++
        ". Try using .NS suffix for Indian stocks (e.g., RELIANCE.NS)")]
    else
      let essential_fields := ["currentPrice", "marketCap", "symbol", "sector", "industry"]
      let missing_fields := essential_fields.filter (fun f => (dictGet info f).isNone)
      let market_info := if strContains symbol ".NS" then "Indian Market" else "International Market"
      [("symbol", symbol),
       ("original_symbol", original_symbol),
       ("current_price", (dictGet info "currentPrice").getD "N/A"),
       ("market_cap", (dictGet info "marketCap").getD "N/A"),
       ("pe_ratio", (dictGet info "trailingPE").getD "N/A"),
       ("data_quality", if missing_fields.isEmpty then "good" else "partial"),
       ("market", market_info),
       ("currency", (dictGet info "currency").getD
         (if strContains symbol ".NS" then "INR" else "USD"))]

/-- Oracles of the four independent source calls of
DataFetcherAgent.run: the market-data oracle, and the records produced
by the alpha-vantage, filings and news wrappers (each already a
record-or-error value by lines 84-158). -/
structure FetchOracle where
  stock : StockOracle
  alpha_vantage : Record
  sec_filings : Record
  news : Record

/-- DataFetcherAgent.run of src/agents/data_fetcher.py lines 160-199:
uppercase the company name into a symbol, store the four source values
under their keys, append one summary message counting the keys. -/
def data_fetcher_run (o : FetchOracle) (s : FinancialAnalysisState) : FinancialAnalysisState :=
  let symbol := upperStr s.company_name
  let raw := dictSet s.raw_data "stock_data" (get_stock_data o.stock symbol)
  let raw := dictSet raw "alpha_vantage" o.alpha_vantage
  let raw := dictSet raw "sec_filings" o.sec_filings
  let raw := dictSet raw "news" o.news
  { s with raw_data := raw,
           messages := s.messages ++
             ["Collected data from " ++ toString raw.length ++ " sources for " ++ s.company_name] }

/-! ### Query planner (src/agents/query_planner.py) -/

/-- Oracle of the planning generation call combined with the JSON
parse: ok (some descriptions) is a generation whose bracketed list
parsed into tasks with those description fields, ok none is a
generation with no bracket pair found (lines 59-64 default plan), and
error covers the generation call or the JSON decode raising (lines
72-79 fallback). -/
abbrev PlannerOracle := Except String (Option (List String))

/-- QueryPlannerAgent.run of src/agents/query_planner.py lines 46-81. -/
def query_planner_run (o : PlannerOracle) (s : FinancialAnalysisState) : FinancialAnalysisState :=
  match o with
  | .ok (some descriptions) =>
    { s with research_plan := descriptions,
             messages := s.messages ++
               ["Created research plan with " ++ toString descriptions.length ++
                " tasks for " ++ s.company_name] }
  | .ok none =>
    { s with
        research_plan :=
          ["Get current stock data for " ++ s.company_name,
           "Analyze financial statements for " ++ s.company_name,
           "Get recent financial news for " ++ s.company_name,
           "Review recent SEC filings for " ++ s.company_name],
        messages := s.messages ++
          ["Created research plan with 4 tasks for " ++ s.company_name] }
  | .error _ =>
    { s with
        research_plan :=
          ["Get stock data for " ++ s.company_name,
           "Analyze financials for " ++ s.company_name,
           "Get news for " ++ s.company_name],
        messages := s.messages ++ ["Created fallback research plan"] }

/-! ### Data analyst (src/agents/data_analyst.py) -/

/-- Oracle of the analysis generation call and of the wall clock read
stored as the timestamp. -/
structure AnalystOracle where
  outcome : Except String String
  timestamp : String

/-- DataAnalystAgent.run of src/agents/data_analyst.py lines 82-177. -/
def data_analyst_run (o : AnalystOracle) (s : FinancialAnalysisState) : FinancialAnalysisState :=
  match o.outcome with
  | .ok content =>
    { s with
        analyzed_data := some (.success content o.timestamp (dictKeys s.raw_data)),
        messages := s.messages ++
          ["Completed comprehensive analysis of " ++ s.company_name ++
           " using " ++ toString s.raw_data.length ++ " data sources"] }
  | .error e =>
    { s with
        analyzed_data := some (.failure ("Analysis failed: " ++ e)
          ("Basic analysis for " ++ s.company_name ++
           ": Data collection completed, detailed analysis pending.")),
        messages := s.messages ++ ["Analysis encountered issues, fallback analysis created"] }

/-! ### Report writer (src/agents/report_writer.py) -/

/-- Wall-clock oracle of the writer step: the three strftime renderings
the template interpolates. -/
structure WriterDates where
  formatted_date : String
  iso_date : String
  time_str : String

/-- Error-report template of src/agents/report_writer.py lines 161-170,
built without a model call. -/
def errorReportText (company error_message sources : String) : String :=
  "\nInvestment Research Report: " ++ company ++
  "\n\nStatus: Report generation encountered technical difficulties.\nError: " ++
  error_message ++
  "\n\nAvailable Data: Analysis completed for data sources: " ++ sources ++
  "\n\nPlease review the raw analysis data and try regenerating the report.\n"

/-- Success-report envelope of src/agents/report_writer.py lines
133-152 around the generated body. -/
def successReportText (company : String) (d : WriterDates)
    (market_info currency sources body : String) : String :=
  "\nInvestment Research Report: " ++ company ++
  "\n\nGenerated on: " ++ d.formatted_date ++
  "\nAnalysis Date: " ++ d.iso_date ++
  "\nAnalysis Type: Comprehensive Multi-Source Analysis\nMarket: " ++ market_info ++
  "\nCurrency: " ++ currency ++
  "\nData Sources: " ++ sources ++
  "\n\n---\n\n" ++ body ++
  "\n\n---\n\nDisclaimer: This analysis is generated by an AI system for educational purposes. \n" ++
  "Please consult with qualified financial advisors before making investment decisions.\nGenerated on " ++
  d.formatted_date ++ " at " ++ d.time_str ++ " UTC.\n"

/-- ReportWriterAgent.run of src/agents/report_writer.py lines 90-173.
The oracle is the report generation call: ok carries the generated
body, error the exception message. -/
def report_writer_run (d : WriterDates) (oc : Except String String)
    (s : FinancialAnalysisState) : FinancialAnalysisState :=
  match oc with
  | .ok body =>
    let stock_data := (dictGet s.raw_data "stock_data").getD []
    let market_info := (dictGet stock_data "market").getD "International Market"
    let currency := (dictGet stock_data "currency").getD "USD"
    { s with
        final_report := successReportText s.company_name d market_info currency
          (joinComma (dictKeys s.raw_data)) body,
        messages := s.messages ++
          ["Generated comprehensive investment report for " ++ s.company_name] }
  | .error e =>
    { s with
        final_report := errorReportText s.company_name e (joinComma (dictKeys s.raw_data)),
        messages := s.messages ++ ["Report generation failed, error report created"] }

/-! ### Workflow engine (src/utils/helpers.py lines 9-44) -/

/-- Oracle bundle of one Fetch to Check pass of the cycle. -/
structure CycleOracle where
  fetch : FetchOracle
  analyst : AnalystOracle
  writer_dates : WriterDates
  writer : Except String String
  checker : Except String String

/-- One pass of the loop body along the unconditional edges
fetcher to analyst to writer to checker. -/
def run_cycle (o : CycleOracle) (s : FinancialAnalysisState) : FinancialAnalysisState :=
  quality_checker_run o.checker
    (report_writer_run o.writer_dates o.writer
      (data_analyst_run o.analyst
        (data_fetcher_run o.fetch s)))

/-- Engine loop: run a cycle, evaluate the conditional edge, either end
(returning the terminal state and the number of passes through Check)
or loop back to the fetcher node.  Fuel-indexed; the termination
theorem shows fuel 3 always suffices. -/
def engine_loop (o : Nat → CycleOracle) : Nat → Nat → FinancialAnalysisState →
    Option (FinancialAnalysisState × Nat)
  | _, 0, _ => none
  | k, fuel + 1, s =>
    let s₁ := run_cycle (o k) s
    if should_continue s₁ = "end" then some (s₁, k + 1)
    else engine_loop o (k + 1) fuel s₁

/-- graph.invoke of the compiled workflow: planner once, then the
bounded cycle. -/
def graph_invoke (po : PlannerOracle) (o : Nat → CycleOracle)
    (s₀ : FinancialAnalysisState) : Option (FinancialAnalysisState × Nat) :=
  engine_loop o 0 3 (query_planner_run po s₀)

/-- Zeroed initial state built by run_financial_analysis
(src/utils/helpers.py lines 49-58). -/
def initial_state (company_name : String) : FinancialAnalysisState :=
  { company_name := company_name, research_plan := [], raw_data := [],
    analyzed_data := none, final_report := "", messages := [],
    iteration_count := 0, quality_check_passed := false }

/-- run_financial_analysis of src/utils/helpers.py lines 46-68.  The
progress callback may raise (Except result); the source calls it
unguarded, so a raising callback propagates out of the facade. -/
def run_financial_analysis (company_name : String)
    (progress_callback : Option (String → Nat → Except String Unit))
    (po : PlannerOracle) (o : Nat → CycleOracle) :
    Except String (Option FinancialAnalysisState) :=
  match progress_callback with
  | none => .ok ((graph_invoke po o (initial_state company_name)).map Prod.fst)
  | some f =>
    match f "Initializing analysis" 20 with
    | .error e => .error e
    | .ok _ =>
      let result := (graph_invoke po o (initial_state company_name)).map Prod.fst
      match f "Analysis complete" 100 with
      | .error e => .error e
      | .ok _ => .ok result

/-! ### String lemmas -/

theorem toList_append (a b : String) : (a ++ b).toList = a.toList ++ b.toList := by
  cases a; cases b; rfl

theorem leadsList_append (p t : List Char) : leadsList p (p ++ t) = true := by
  induction p with
  | nil => rfl
  | cons c cs ih => simp [leadsList, ih]

theorem occursIn_of_leadsList {p t : List Char} (h : leadsList p t = true) :
    occursIn p t = true := by
  cases t with
  | nil =>
    cases p with
    | nil => rfl
    | cons c cs => simp [leadsList] at h
  | cons c cs => simp [occursIn, h]

theorem occursIn_cons {p t : List Char} (c : Char) (h : occursIn p t = true) :
    occursIn p (c :: t) = true := by
  simp [occursIn, h]

theorem occursIn_append {p t : List Char} (a : List Char) (h : occursIn p t = true) :
    occursIn p (a ++ t) = true := by
  induction a with
  | nil => exact h
  | cons c cs ih => exact occursIn_cons c ih

theorem occursIn_mid (a p b : List Char) : occursIn p (a ++ (p ++ b)) = true :=
  occursIn_append a (occursIn_of_leadsList (leadsList_append p b))

theorem strContains_of_toList {s pat : String} (a b : List Char)
    (h : s.toList = a ++ (pat.toList ++ b)) : strContains s pat = true := by
  unfold strContains
  rw [h]
  exact occursIn_mid a _ b

theorem leadsList_map (f : Char → Char) {p t : List Char} (h : leadsList p t = true) :
    leadsList (p.map f) (t.map f) = true := by
  induction p generalizing t with
  | nil => rfl
  | cons c cs ih =>
    cases t with
    | nil => simp [leadsList] at h
    | cons d ds =>
      simp only [leadsList, Bool.and_eq_true, beq_iff_eq] at h
      simp only [List.map, leadsList, Bool.and_eq_true, beq_iff_eq]
      exact ⟨by rw [h.1], ih h.2⟩

theorem occursIn_map (f : Char → Char) {p t : List Char} (h : occursIn p t = true) :
    occursIn (p.map f) (t.map f) = true := by
  induction t with
  | nil =>
    cases p with
    | nil => rfl
    | cons c cs => simp [occursIn] at h
  | cons c cs ih =>
    simp only [occursIn, Bool.or_eq_true] at h
    rcases h with h | h
    · exact occursIn_of_leadsList (leadsList_map f h)
    · exact occursIn_cons _ (ih h)

theorem strContains_upper {s p : String} (h : strContains s p = true) :
    strContains (upperStr s) (upperStr p) = true := by
  unfold strContains at h ⊢
  unfold upperStr
  simpa using occursIn_map Char.toUpper h

theorem no_suffix_no_NS {symbol : String} (h : hasExchangeSuffix symbol = false) :
    strContains symbol ".NS" = false := by
  cases hb : strContains symbol ".NS" with
  | false => rfl
  | true =>
    exfalso
    have h2 := strContains_upper (p := ".NS") hb
    have h3 : upperStr ".NS" = ".NS" := by decide
    rw [h3] at h2
    simp [hasExchangeSuffix] at h
    exact absurd h2 (by simp [h.1])

theorem contains_NS_append (x : String) : strContains (x ++ ".NS") ".NS" = true := by
  apply strContains_of_toList x.toList []
  rw [toList_append]
  simp

theorem str_ne_empty_of_toList {s : String} (h : s.toList ≠ []) : s ≠ "" := by
  intro he
  apply h
  rw [he]
  rfl

theorem toList_append_ne_nil_left {a : String} (b : String) (h : a.toList ≠ []) :
    (a ++ b).toList ≠ [] := by
  rw [toList_append]
  intro hx
  exact h (List.append_eq_nil.mp hx).1

/-! ### Step bookkeeping lemmas -/

theorem data_fetcher_run_iter (o : FetchOracle) (s : FinancialAnalysisState) :
    (data_fetcher_run o s).iteration_count = s.iteration_count := rfl

theorem data_fetcher_run_passed (o : FetchOracle) (s : FinancialAnalysisState) :
    (data_fetcher_run o s).quality_check_passed = s.quality_check_passed := rfl

theorem data_analyst_run_iter (o : AnalystOracle) (s : FinancialAnalysisState) :
    (data_analyst_run o s).iteration_count = s.iteration_count := by
  rcases o with ⟨out, ts⟩
  cases out <;> rfl

theorem data_analyst_run_passed (o : AnalystOracle) (s : FinancialAnalysisState) :
    (data_analyst_run o s).quality_check_passed = s.quality_check_passed := by
  rcases o with ⟨out, ts⟩
  cases out <;> rfl

theorem report_writer_run_iter (d : WriterDates) (oc : Except String String)
    (s : FinancialAnalysisState) :
    (report_writer_run d oc s).iteration_count = s.iteration_count := by
  cases oc <;> simp [report_writer_run]

theorem report_writer_run_passed (d : WriterDates) (oc : Except String String)
    (s : FinancialAnalysisState) :
    (report_writer_run d oc s).quality_check_passed = s.quality_check_passed := by
  cases oc <;> simp [report_writer_run]

theorem query_planner_run_iter (o : PlannerOracle) (s : FinancialAnalysisState) :
    (query_planner_run o s).iteration_count = s.iteration_count := by
  rcases o with e | op
  · rfl
  · rcases op with _ | d <;> rfl

theorem quality_checker_run_iter_le (oc : Except String String) (s : FinancialAnalysisState) :
    (quality_checker_run oc s).iteration_count ≤ s.iteration_count + 1 := by
  cases oc with
  | error e => exact Nat.le_succ _
  | ok a => exact Nat.le_refl _

theorem quality_checker_run_not_passed {oc : Except String String}
    {s : FinancialAnalysisState}
    (h : (quality_checker_run oc s).quality_check_passed = false) :
    (quality_checker_run oc s).iteration_count = s.iteration_count + 1 ∧
    s.iteration_count < 2 := by
  cases oc with
  | error e => simp [quality_checker_run] at h
  | ok a =>
    refine ⟨rfl, ?_⟩
    by_cases h2 : s.iteration_count < 2
    · exact h2
    · exfalso
      simp [quality_checker_run, h2] at h

theorem run_cycle_iter_le (o : CycleOracle) (s : FinancialAnalysisState) :
    (run_cycle o s).iteration_count ≤ s.iteration_count + 1 := by
  unfold run_cycle
  calc (quality_checker_run o.checker
          (report_writer_run o.writer_dates o.writer
            (data_analyst_run o.analyst (data_fetcher_run o.fetch s)))).iteration_count
      ≤ (report_writer_run o.writer_dates o.writer
          (data_analyst_run o.analyst (data_fetcher_run o.fetch s))).iteration_count + 1 :=
        quality_checker_run_iter_le _ _
    _ = s.iteration_count + 1 := by
        rw [report_writer_run_iter, data_analyst_run_iter, data_fetcher_run_iter]

theorem run_cycle_not_passed {o : CycleOracle} {s : FinancialAnalysisState}
    (h : (run_cycle o s).quality_check_passed = false) :
    (run_cycle o s).iteration_count = s.iteration_count + 1 ∧ s.iteration_count < 2 := by
  unfold run_cycle at h ⊢
  have h2 := quality_checker_run_not_passed h
  rwa [report_writer_run_iter, data_analyst_run_iter, data_fetcher_run_iter] at h2

theorem should_continue_end_passed {s : FinancialAnalysisState}
    (h : s.quality_check_passed = true) : should_continue s = "end" := by
  simp [should_continue, h]

theorem should_continue_end_iter {s : FinancialAnalysisState}
    (h : 2 ≤ s.iteration_count) : should_continue s = "end" := by
  simp [should_continue, h]

theorem should_continue_not_end {s : FinancialAnalysisState}
    (h : ¬ should_continue s = "end") :
    s.quality_check_passed = false ∧ s.iteration_count < 2 := by
  by_cases hp : s.quality_check_passed
  · exact absurd (should_continue_end_passed hp) h
  · by_cases hi : 2 ≤ s.iteration_count
    · exact absurd (should_continue_end_iter hi) h
    · exact ⟨by simpa using hp, by omega⟩

/-! ### Engine termination -/

theorem graph_invoke_terminates (po : PlannerOracle) (o : Nat → CycleOracle) (c : String) :
    ∃ t n, graph_invoke po o (initial_state c) = some (t, n) ∧
      (n = 1 ∨ n = 2) ∧ t.iteration_count ≤ 2 := by
  unfold graph_invoke
  set s₀ := query_planner_run po (initial_state c) with hs₀def
  have hs₀ : s₀.iteration_count = 0 := by
    rw [hs₀def, query_planner_run_iter]
    rfl
  set s₁ := run_cycle (o 0) s₀ with hs₁def
  have hle₁ : s₁.iteration_count ≤ s₀.iteration_count + 1 := run_cycle_iter_le (o 0) s₀
  by_cases h₁ : should_continue s₁ = "end"
  · refine ⟨s₁, 1, ?_, Or.inl rfl, by omega⟩
    simp [engine_loop, ← hs₁def, h₁]
  · obtain ⟨hp₁, _⟩ := should_continue_not_end h₁
    obtain ⟨hiter₁, _⟩ := run_cycle_not_passed hp₁
    rw [← hs₁def] at hiter₁
    set s₂ := run_cycle (o 1) s₁ with hs₂def
    have hle₂ : s₂.iteration_count ≤ s₁.iteration_count + 1 := run_cycle_iter_le (o 1) s₁
    have h₂ : should_continue s₂ = "end" := by
      by_cases hp₂ : s₂.quality_check_passed
      · exact should_continue_end_passed hp₂
      · obtain ⟨hiter₂, _⟩ := run_cycle_not_passed (by simpa using hp₂)
        rw [← hs₂def] at hiter₂
        apply should_continue_end_iter
        omega
    refine ⟨s₂, 2, ?_, Or.inr rfl, by omega⟩
    simp [engine_loop, ← hs₁def, h₁, ← hs₂def, h₂]

/-! ### Report template lemmas -/

theorem errorReportText_ne_empty (c e ks : String) : errorReportText c e ks ≠ "" := by
  apply str_ne_empty_of_toList
  unfold errorReportText
  repeat apply toList_append_ne_nil_left
  decide

theorem successReportText_ne_empty (c : String) (d : WriterDates)
    (mi cur ks body : String) : successReportText c d mi cur ks body ≠ "" := by
  apply str_ne_empty_of_toList
  unfold successReportText
  repeat apply toList_append_ne_nil_left
  decide

theorem errorReportText_contains_error (c e ks : String) :
    strContains (errorReportText c e ks) e = true := by
  apply strContains_of_toList
    (("\nInvestment Research Report: " ++ c ++
      "\n\nStatus: Report generation encountered technical difficulties.\nError: ").toList)
    (("\n\nAvailable Data: Analysis completed for data sources: " ++ ks ++
      "\n\nPlease review the raw analysis data and try regenerating the report.\n").toList)
  simp [errorReportText, toList_append, List.append_assoc]

theorem errorReportText_contains_sources (c e ks : String) :
    strContains (errorReportText c e ks) ks = true := by
  apply strContains_of_toList
    (("\nInvestment Research Report: " ++ c ++
      "\n\nStatus: Report generation encountered technical difficulties.\nError: " ++ e ++
      "\n\nAvailable Data: Analysis completed for data sources: ").toList)
    (("\n\nPlease review the raw analysis data and try regenerating the report.\n").toList)
  simp [errorReportText, toList_append, List.append_assoc]

/-! ### Concrete fixtures used by witnesses and counterexamples -/

/-- Fixed wall-clock renderings for concrete runs. -/
def sampleDates : WriterDates :=
  { formatted_date := "October 12, 2026", iso_date := "2026-10-12", time_str := "12:00:00" }

/-- Market-data oracle returning an empty info mapping for every
symbol, raising nothing. -/
def emptyStock : StockOracle := { info_of := fun _ => [], raised := none }

/-- Cycle oracle on which every generation call either fails or grades
the report with score 1, so the heuristic gate always asks for another
iteration. -/
def failingCycle : CycleOracle :=
  { fetch := { stock := emptyStock, alpha_vantage := [], sec_filings := [], news := [] },
    analyst := { outcome := .error "analysis model down", timestamp := "t0" },
    writer_dates := sampleDates,
    writer := .error "generation failed",
    checker := .ok "QUALITY_SCORE: 1" }

/-- State reaching the conditional edge after two cycles in which both
quality checks computed needs_improvement true: the state the branch
sees on the second pass of a doubly-failing run. -/
def second_check_state : FinancialAnalysisState :=
  run_cycle failingCycle (run_cycle failingCycle
    (query_planner_run (.error "planner down") (initial_state "ACME")))

/-- Long report with no recommendation keyword and no error marker. -/
def long_plain_report : String := String.mk (List.replicate 600 'z')

/-- First-iteration state carrying the long plain report. -/
def c4_state : FinancialAnalysisState :=
  { initial_state "ACME" with final_report := long_plain_report }

/-- State entering the quality check at the iteration cap with a report
every heuristic gate rejects. -/
def c5_state : FinancialAnalysisState :=
  { initial_state "ACME" with
    iteration_count := 2,
    final_report := "error: failed short report" }

/-- State with two collected raw-data sources, for the writer failure
path. -/
def c6_state : FinancialAnalysisState :=
  { initial_state "ACME" with
    raw_data := [("stock_data", [("market", "International Market")]),
                 ("news", [("message", "sample")])] }

/-! ### Claims -/

/-- C1, counterexample: when the quality generation call raises, the
step sets quality_check_passed to true but leaves iteration_count
unchanged at 0 instead of incrementing it to 1, refuting the claimed
unconditional increment. -/
theorem checker_raise_skips_increment :
    (quality_checker_run (.error "model down") (initial_state "ACME")).quality_check_passed
      = true ∧
    (quality_checker_run (.error "model down") (initial_state "ACME")).iteration_count
      = (initial_state "ACME").iteration_count ∧
    ¬ ((quality_checker_run (.error "model down") (initial_state "ACME")).iteration_count
      = (initial_state "ACME").iteration_count + 1) := by
  refine ⟨rfl, rfl, ?_⟩
  decide

/-- C1, amended: on the non-raising path the quality-check step
increments iteration_count by exactly 1; when the quality
text-generation call raises, the step sets quality_check_passed to true
and leaves iteration_count unchanged. -/
theorem checker_increment_behaviour (s : FinancialAnalysisState) :
    (∀ a, (quality_checker_run (.ok a) s).iteration_count = s.iteration_count + 1) ∧
    (∀ e, (quality_checker_run (.error e) s).quality_check_passed = true ∧
          (quality_checker_run (.error e) s).iteration_count = s.iteration_count) :=
  ⟨fun _ => rfl, fun _ => ⟨rfl, rfl⟩⟩

/-- C2, counterexample: the state reaching the branch on the second
pass of a doubly-failing run has quality_check_passed false and
iteration_count 2, yet is routed to end rather than back to the
fetcher, so the branch decision is not determined by
quality_check_passed alone. -/
theorem branch_end_despite_failed_check :
    second_check_state.quality_check_passed = false ∧
    second_check_state.iteration_count = 2 ∧
    should_continue second_check_state = "end" ∧
    should_continue second_check_state ≠ "data_fetcher" := by
  refine ⟨?_, ?_, ?_, ?_⟩ <;> decide

/-- C2, amended: the branch function sends the run back to the fetch
step iff quality_check_passed is false AND iteration_count is below 2;
otherwise it routes to Done, so the decision also reads
iteration_count. -/
theorem branch_decision (s : FinancialAnalysisState) :
    should_continue s = "data_fetcher" ↔
      s.quality_check_passed = false ∧ s.iteration_count < 2 := by
  unfold should_continue
  constructor
  · intro h
    by_cases hp : s.quality_check_passed
    · rw [if_pos (by simp [hp])] at h
      exact absurd h (by decide)
    · by_cases hi : 2 ≤ s.iteration_count
      · rw [if_pos (by simp [hi])] at h
        exact absurd h (by decide)
      · exact ⟨by simpa using hp, by omega⟩
  · rintro ⟨h1, h2⟩
    rw [if_neg (by simp [h1]; omega)]

/-- C4: on a first-iteration state, whenever the step parses a quality
score of exactly 5, the quality check passes; no hypothesis is made on
the heuristic gates, so this holds in particular when the report lacks
a recommendation keyword and is at least 500 characters long. -/
theorem first_pass_score_five_forces_pass (a : String) (s : FinancialAnalysisState)
    (h0 : s.iteration_count = 0) (h5 : extract_quality_score a = 5) :
    (quality_checker_run (.ok a) s).quality_check_passed = true := by
  simp [quality_checker_run, h0, h5]

/-- Witness for C4 at a concrete state: iteration 0, score line parsing
to 5, a 600-character report with no recommendation keyword. -/
theorem first_pass_score_five_forces_pass_witness :
    c4_state.iteration_count = 0 ∧
    extract_quality_score "QUALITY_SCORE: 5" = 5 ∧
    (["BUY", "SELL", "HOLD", "RECOMMENDATION"].any
      (fun w => strContains (upperStr c4_state.final_report) w)) = false ∧
    500 ≤ c4_state.final_report.length ∧
    (quality_checker_run (.ok "QUALITY_SCORE: 5") c4_state).quality_check_passed = true :=
  ⟨rfl, by decide, by decide, by decide,
    first_pass_score_five_forces_pass "QUALITY_SCORE: 5" c4_state rfl (by decide)⟩

/-- C5: every state entering the quality check with iteration_count 2
leaves it with quality_check_passed true, for every oracle outcome and
hence regardless of the parsed score and heuristic gates. -/
theorem cap_entry_forces_pass (oc : Except String String) (s : FinancialAnalysisState)
    (h2 : s.iteration_count = 2) :
    (quality_checker_run oc s).quality_check_passed = true := by
  cases oc with
  | error e => rfl
  | ok a => simp [quality_checker_run, h2]

/-- Witness for C5 at a concrete state: iteration 2, score parsing to
1, a short report containing error markers and no recommendation. -/
theorem cap_entry_forces_pass_witness :
    c5_state.iteration_count = 2 ∧
    extract_quality_score "QUALITY_SCORE: 1" = 1 ∧
    (quality_checker_run (.ok "QUALITY_SCORE: 1") c5_state).quality_check_passed = true :=
  ⟨rfl, by decide, cap_entry_forces_pass (.ok "QUALITY_SCORE: 1") c5_state rfl⟩

/-- C3: for every planner oracle, every stream of cycle oracles and
every company input, the engine reaches Done, the number of passes
through Check lies in the set containing 1, 2 and 3, and the terminal
iteration_count never exceeds 3. -/
theorem workflow_reaches_done (po : PlannerOracle) (o : Nat → CycleOracle) (c : String) :
    ∃ t n, graph_invoke po o (initial_state c) = some (t, n) ∧
      (n = 1 ∨ n = 2 ∨ n = 3) ∧ t.iteration_count ≤ 3 := by
  obtain ⟨t, n, h, hn, hi⟩ := graph_invoke_terminates po o c
  refine ⟨t, n, h, ?_, by omega⟩
  rcases hn with h1 | h2
  · exact Or.inl h1
  · exact Or.inr (Or.inl h2)

/-- C6: after every writer execution the final report is non-empty,
and on the failure path it equals the deterministic error template,
which contains the exception message and the comma-joined list of
collected raw-data source keys. -/
theorem writer_report_contract (d : WriterDates) (oc : Except String String)
    (s : FinancialAnalysisState) :
    (report_writer_run d oc s).final_report ≠ "" ∧
    (∀ e, oc = .error e →
      (report_writer_run d oc s).final_report =
        errorReportText s.company_name e (joinComma (dictKeys s.raw_data)) ∧
      strContains (report_writer_run d oc s).final_report e = true ∧
      strContains (report_writer_run d oc s).final_report
        (joinComma (dictKeys s.raw_data)) = true) := by
  cases oc with
  | error e₀ =>
    have hfr : (report_writer_run d (.error e₀) s).final_report =
        errorReportText s.company_name e₀ (joinComma (dictKeys s.raw_data)) := by
      simp [report_writer_run]
    refine ⟨?_, ?_⟩
    · rw [hfr]
      exact errorReportText_ne_empty _ _ _
    · intro e he
      have he' : e₀ = e := by injection he
      subst he'
      exact ⟨hfr, by rw [hfr]; exact errorReportText_contains_error _ _ _,
        by rw [hfr]; exact errorReportText_contains_sources _ _ _⟩
  | ok body =>
    refine ⟨?_, ?_⟩
    · show (report_writer_run d (.ok body) s).final_report ≠ ""
      simp only [report_writer_run]
      exact successReportText_ne_empty _ _ _ _ _ _
    · intro e he
      simp at he

/-- Witness for C6 on a concrete failing generation call over a state
that collected two sources. -/
theorem writer_report_contract_witness :
    (report_writer_run sampleDates (.error "boom") c6_state).final_report =
      errorReportText "ACME" "boom" "stock_data, news" ∧
    strContains ((report_writer_run sampleDates (.error "boom") c6_state).final_report)
      "boom" = true ∧
    (report_writer_run sampleDates (.error "boom") c6_state).final_report ≠ "" := by
  have h := writer_report_contract sampleDates (.error "boom") c6_state
  exact ⟨((h.2 "boom" rfl).1).trans (by decide), (h.2 "boom" rfl).2.1, h.1⟩

/-- C9: each of the five step functions returns the input message
sequence extended by at least one appended message, for every oracle
outcome, so no existing entry is removed or altered and the length
strictly increases. -/
theorem steps_append_messages (s : FinancialAnalysisState) :
    (∀ po : PlannerOracle, ∃ m, (query_planner_run po s).messages = s.messages ++ m ∧ m ≠ []) ∧
    (∀ o : FetchOracle, ∃ m, (data_fetcher_run o s).messages = s.messages ++ m ∧ m ≠ []) ∧
    (∀ o : AnalystOracle, ∃ m, (data_analyst_run o s).messages = s.messages ++ m ∧ m ≠ []) ∧
    (∀ (d : WriterDates) (oc : Except String String), ∃ m,
      (report_writer_run d oc s).messages = s.messages ++ m ∧ m ≠ []) ∧
    (∀ oc : Except String String, ∃ m,
      (quality_checker_run oc s).messages = s.messages ++ m ∧ m ≠ []) := by
  refine ⟨?_, ?_, ?_, ?_, ?_⟩
  · intro po
    rcases po with e | op
    · exact ⟨_, rfl, by simp⟩
    · rcases op with _ | descs
      · exact ⟨_, rfl, by simp⟩
      · exact ⟨_, rfl, by simp⟩
  · intro o
    exact ⟨_, rfl, by simp⟩
  · intro o
    rcases o with ⟨out, ts⟩
    cases out
    · exact ⟨_, rfl, by simp⟩
    · exact ⟨_, rfl, by simp⟩
  · intro d oc
    cases oc with
    | error e =>
      refine ⟨["Report generation failed, error report created"], ?_, by simp⟩
      simp [report_writer_run]
    | ok body =>
      refine ⟨["Generated comprehensive investment report for " ++ s.company_name], ?_, by simp⟩
      simp [report_writer_run]
  · intro oc
    cases oc
    · exact ⟨_, rfl, by simp⟩
    · exact ⟨_, rfl, by simp⟩

/-- C10: with oracles on which both executed quality checks compute
needs_improvement true (score line 1, error-laden report), the
workflow still terminates in Done after 2 passes through Check, with
quality_check_passed false in the terminal state; so terminal
quality_check_passed true is not an invariant of completed runs. -/
theorem run_can_end_with_failed_check :
    (graph_invoke (.error "planner down") (fun _ => failingCycle)
        (initial_state "ACME")).map
      (fun p => (p.1.quality_check_passed, p.2)) = some (false, 2) := by
  decide

/-- C7: for every identifier without a recognized exchange suffix and a
non-raising data library, the fetch first tries the regional .NS
variant and adopts it iff that info record is rich (more than 50
fields and a truthy current price), tagging market Indian Market with
currency derived from the record or the suffix; otherwise it queries
the original identifier unmodified and, when that record passes the
validity floor, tags market International Market with currency from
the record or the USD default. -/
theorem market_suffix_selection (o : StockOracle) (symbol : String)
    (hr : o.raised = none) (hsuf : hasExchangeSuffix symbol = false) :
    (richInfo (o.info_of (symbol ++ ".NS")) = true →
      dictGet (get_stock_data o symbol) "symbol" = some (symbol ++ ".NS") ∧
      dictGet (get_stock_data o symbol) "market" = some "Indian Market" ∧
      dictGet (get_stock_data o symbol) "currency" =
        some ((dictGet (o.info_of (symbol ++ ".NS")) "currency").getD "INR")) ∧
    (richInfo (o.info_of (symbol ++ ".NS")) = false →
      10 ≤ (o.info_of symbol).length →
      dictGet (get_stock_data o symbol) "symbol" = some symbol ∧
      dictGet (get_stock_data o symbol) "market" = some "International Market" ∧
      dictGet (get_stock_data o symbol) "currency" =
        some ((dictGet (o.info_of symbol) "currency").getD "USD")) := by
  constructor
  · intro hrich
    have h50 : 50 < (o.info_of (symbol ++ ".NS")).length := by
      simp only [richInfo, Bool.and_eq_true, decide_eq_true_eq] at hrich
      exact hrich.1.2
    have hne : (o.info_of (symbol ++ ".NS")).isEmpty = false := by
      cases hinfo : (o.info_of (symbol ++ ".NS")).isEmpty
      · rfl
      · rw [List.isEmpty_iff] at hinfo
        rw [hinfo] at h50
        simp at h50
    have hval : ((o.info_of (symbol ++ ".NS")).isEmpty ||
        decide ((o.info_of (symbol ++ ".NS")).length < 10)) = false := by
      simp [hne]
      omega
    simp only [get_stock_data, hr, hsuf, Bool.not_false, if_true, hrich, hval,
      Bool.false_eq_true, if_false, contains_NS_append, if_true]
    refine ⟨by simp [dictGet], by simp [dictGet], by simp [dictGet]⟩
  · intro hrich hlen
    have hne : (o.info_of symbol).isEmpty = false := by
      cases hinfo : (o.info_of symbol).isEmpty
      · rfl
      · rw [List.isEmpty_iff] at hinfo
        rw [hinfo] at hlen
        simp at hlen
    have hval : ((o.info_of symbol).isEmpty ||
        decide ((o.info_of symbol).length < 10)) = false := by
      simp [hne]
      omega
    have hns : strContains symbol ".NS" = false := no_suffix_no_NS hsuf
    simp only [get_stock_data, hr, hsuf, Bool.not_false, if_true, hrich,
      Bool.false_eq_true, if_false, hval, hns]
    refine ⟨by simp [dictGet], by simp [dictGet], by simp [dictGet]⟩

/-- Rich regional info mapping: 60 numbered fields plus a current
price and a currency, 62 fields in total. -/
def rich_info_record : Record :=
  ((List.range 60).map (fun i => (toString i, "v"))) ++
    [("currentPrice", "2850.5"), ("currency", "INR")]

/-- Ten-field info mapping without a currency entry. -/
def plain_info_record : Record :=
  (List.range 10).map (fun i => (toString i, "v"))

/-- Oracle on which the regional variant of ACME is rich. -/
def o7_rich : StockOracle :=
  { info_of := fun sym => if sym = "ACME.NS" then rich_info_record else [],
    raised := none }

/-- Oracle on which the regional variant is poor and the original
identifier resolves to a valid record. -/
def o7_plain : StockOracle :=
  { info_of := fun sym => if sym = "ACME" then plain_info_record else [],
    raised := none }

/-- Witness for C7 on both sides of the richness gate at the concrete
identifier ACME. -/
theorem market_suffix_selection_witness :
    hasExchangeSuffix "ACME" = false ∧
    richInfo (o7_rich.info_of ("ACME" ++ ".NS")) = true ∧
    dictGet (get_stock_data o7_rich "ACME") "market" = some "Indian Market" ∧
    dictGet (get_stock_data o7_rich "ACME") "symbol" = some ("ACME" ++ ".NS") ∧
    richInfo (o7_plain.info_of ("ACME" ++ ".NS")) = false ∧
    10 ≤ (o7_plain.info_of "ACME").length ∧
    dictGet (get_stock_data o7_plain "ACME") "market" = some "International Market" ∧
    dictGet (get_stock_data o7_plain "ACME") "symbol" = some "ACME" := by
  have h1 := market_suffix_selection o7_rich "ACME" rfl (by decide)
  have h2 := market_suffix_selection o7_plain "ACME" rfl (by decide)
  exact ⟨by decide, by decide, (h1.1 (by decide)).2.1, (h1.1 (by decide)).1,
    by decide, by decide, (h2.2 (by decide) (by decide)).2.1, (h2.2 (by decide) (by decide)).1⟩

/-- C8, counterexample: with a callback that raises, the facade
propagates the exception instead of returning the analysis state it
returns with no callback, so a raising callback does change the
outcome. -/
theorem raising_callback_changes_outcome :
    run_financial_analysis "ACME" (some (fun _ _ => .error "callback down"))
      (.error "planner down") (fun _ => failingCycle) = .error "callback down" ∧
    run_financial_analysis "ACME" none
      (.error "planner down") (fun _ => failingCycle) =
      .ok ((graph_invoke (.error "planner down") (fun _ => failingCycle)
        (initial_state "ACME")).map Prod.fst) ∧
    run_financial_analysis "ACME" (some (fun _ _ => .error "callback down"))
      (.error "planner down") (fun _ => failingCycle) ≠
    run_financial_analysis "ACME" none
      (.error "planner down") (fun _ => failingCycle) := by
  refine ⟨rfl, rfl, ?_⟩
  intro h
  rw [show run_financial_analysis "ACME" (some (fun _ _ => .error "callback down"))
      (.error "planner down") (fun _ => failingCycle) = .error "callback down" from rfl] at h
  rw [show run_financial_analysis "ACME" none
      (.error "planner down") (fun _ => failingCycle) =
      .ok ((graph_invoke (.error "planner down") (fun _ => failingCycle)
        (initial_state "ACME")).map Prod.fst) from rfl] at h
  exact Except.noConfusion h

/-- C8, amended: the facade calls the progress callback unguarded; a
callback raising at the first milestone makes the facade return that
exception for every oracle behaviour, while with no callback the
facade returns the engine result. -/
theorem facade_callback_propagates (c : String) (po : PlannerOracle)
    (o : Nat → CycleOracle) (e : String) :
    run_financial_analysis c (some (fun _ _ => .error e)) po o = .error e ∧
    run_financial_analysis c none po o =
      .ok ((graph_invoke po o (initial_state c)).map Prod.fst) :=
  ⟨rfl, rfl⟩
